import Mathlib

/-!
Verification of the ATC-Data-Extraction core components against their
specification: the text normalizer (`src/preprocessing/normalizer.py`),
the transmission filter (`src/preprocessing/filters.py`) and the audio
quality scorer (`src/analysis/audio_quality.py`).

Text is modelled as `List Char` / `String`.  Python string predicates
(`isalnum`, `isalpha`, `\w`, `\d`, `\s`) are modelled over the ASCII
range, which covers every character class the source's own patterns
([A-Z], \d, fixed tables) select on.  Audio samples are modelled as
rationals; the floating-point dB value `10*log10(s/n)` is kept symbolic
(constructor `SnrVal.logRatio`), while the exactly-specified return
values (0.0 and the 60.0 ceiling) are concrete rationals.
-/

namespace ATC

/-! ## Character helpers (ASCII models of Python's predicates) -/

/-- Python whitespace for `str.split` / `str.strip` / `\s` (ASCII range). -/
def pyIsSpace (c : Char) : Bool :=
  c = ' ' || c = '\t' || c = '\n' || c = '\r' || c = '\x0b' || c = '\x0c'

def isAsciiUpper (c : Char) : Bool := 'A' ≤ c && c ≤ 'Z'

def isAsciiLower (c : Char) : Bool := 'a' ≤ c && c ≤ 'z'

def isAsciiAlpha (c : Char) : Bool := isAsciiUpper c || isAsciiLower c

def isAsciiDigit (c : Char) : Bool := '0' ≤ c && c ≤ '9'

def isAsciiAlnum (c : Char) : Bool := isAsciiAlpha c || isAsciiDigit c

/-- A regex word character `\w`: alphanumeric or underscore (ASCII model). -/
def isWordChar (c : Char) : Bool := isAsciiAlnum c || c = '_'

/-! ## Python string primitives -/

/-- `str.split()` with no argument: split on whitespace runs, dropping
empty pieces.  `acc` is the current word, reversed. -/
def pySplitAux : List Char → List Char → List (List Char)
  | [], acc => if acc.isEmpty then [] else [acc.reverse]
  | c :: rest, acc =>
    if pyIsSpace c then
      if acc.isEmpty then pySplitAux rest [] else acc.reverse :: pySplitAux rest []
    else pySplitAux rest (c :: acc)

def pySplit (s : List Char) : List (List Char) := pySplitAux s []

/-- `str.strip()`: drop leading and trailing whitespace. -/
def pyStrip (s : List Char) : List Char :=
  ((s.dropWhile pyIsSpace).reverse.dropWhile pyIsSpace).reverse

/-- `str.upper()` (ASCII model: `Char.toUpper`). -/
def pyUpper (s : List Char) : List Char := s.map Char.toUpper

/-- `str.lower()` (ASCII model: `Char.toLower`). -/
def pyLower (s : List Char) : List Char := s.map Char.toLower

/-- `' '.join(words)`. -/
def joinSpace (ws : List (List Char)) : List Char := List.intercalate [' '] ws

/-- Whether `pat` is a prefix of `s`. -/
def startsWithSeq : List Char → List Char → Bool
  | [], _ => true
  | _ :: _, [] => false
  | p :: ps, c :: cs => p == c && startsWithSeq ps cs

/-- Whether `pat` occurs as a contiguous subsequence of `s` (regex
`search` of a literal pattern, Python `in`). -/
def containsSeq (pat : List Char) : List Char → Bool
  | [] => startsWithSeq pat []
  | c :: cs => startsWithSeq pat (c :: cs) || containsSeq pat cs

/-! ## Normalizer lookup tables (`ATCTextNormalizer` class constants) -/

/-- `PHONETIC_ALPHABET`: the NATO alphabet. -/
def phoneticAlphabet : List (Char × String) :=
  [('A', "ALPHA"), ('B', "BRAVO"), ('C', "CHARLIE"), ('D', "DELTA"),
   ('E', "ECHO"), ('F', "FOXTROT"), ('G', "GOLF"), ('H', "HOTEL"),
   ('I', "INDIA"), ('J', "JULIET"), ('K', "KILO"), ('L', "LIMA"),
   ('M', "MIKE"), ('N', "NOVEMBER"), ('O', "OSCAR"), ('P', "PAPA"),
   ('Q', "QUEBEC"), ('R', "ROMEO"), ('S', "SIERRA"), ('T', "TANGO"),
   ('U', "UNIFORM"), ('V', "VICTOR"), ('W', "WHISKEY"), ('X', "XRAY"),
   ('Y', "YANKEE"), ('Z', "ZULU")]

def phoneticLookup (c : Char) : Option String :=
  (phoneticAlphabet.find? (fun p => p.1 == c)).map (fun p => p.2)

/-- `NUMBER_WORDS`: digit-to-word map, 9 spoken "NINER". -/
def numberWords : List (Char × String) :=
  [('0', "ZERO"), ('1', "ONE"), ('2', "TWO"), ('3', "THREE"), ('4', "FOUR"),
   ('5', "FIVE"), ('6', "SIX"), ('7', "SEVEN"), ('8', "EIGHT"), ('9', "NINER")]

/-- `NUMBER_WORDS.get(d, d)`: unmapped characters pass through. -/
def numberWordOf (c : Char) : List Char :=
  match numberWords.find? (fun p => p.1 == c) with
  | some p => p.2.data
  | none => [c]

/-- `SPELLING_CORRECTIONS`.  The Python dict literal lists the key
`'CONTACT'` twice with the same value; a dict keeps a single entry. -/
def spellingCorrections : List (String × String) :=
  [("ROGER", "ROGER"), ("RODGER", "ROGER"),
   ("WILCO", "WILCO"), ("WILKO", "WILCO"),
   ("AFFIRMATIVE", "AFFIRMATIVE"), ("AFIRMATIVE", "AFFIRMATIVE"),
   ("NEGATIVE", "NEGATIVE"), ("NEGITIVE", "NEGATIVE"),
   ("CLEARED", "CLEARED"), ("CLEARD", "CLEARED"),
   ("RUNWAY", "RUNWAY"), ("RUNAWAY", "RUNWAY"),
   ("TAXI", "TAXI"), ("TAXIE", "TAXI"),
   ("CONTACT", "CONTACT"),
   ("FREQUENCY", "FREQUENCY"), ("FREQ", "FREQUENCY"),
   ("SQUAWK", "SQUAWK"), ("SQWAWK", "SQUAWK"),
   ("ALTITUDE", "ALTITUDE"), ("ALT", "ALTITUDE"),
   ("DESCENT", "DESCENT"), ("DECENT", "DESCENT"),
   ("APPROACH", "APPROACH"), ("APROACH", "APPROACH"),
   ("DEPARTURE", "DEPARTURE"), ("DEPATURE", "DEPARTURE"),
   ("MAINTAIN", "MAINTAIN"), ("MANTAIN", "MAINTAIN"),
   ("TRAFFIC", "TRAFFIC"), ("TRAFIC", "TRAFFIC"),
   ("CONTINUE", "CONTINUE"), ("CONTIUE", "CONTINUE")]

/-- `REMOVABLE_TAGS`.  Each source regex (`r'\[GROUND\]'` …) is a
literal string once unescaped; it is matched case-insensitively. -/
def removableTags : List String :=
  ["[GROUND]", "[AIR]", "[SPEAKER]", "[PILOT]", "[ATC]", "[TOWER]",
   "[CENTER]", "[APPROACH]", "[DEPARTURE]", "[CLEARANCE]"]

/-- `CONTRACTIONS`: token-for-token contraction expansions. -/
def contractionsTable : List (String × String) :=
  [("I'M", "I AM"), ("I'VE", "I HAVE"), ("I'LL", "I WILL"), ("I'D", "I WOULD"),
   ("YOU'RE", "YOU ARE"), ("YOU'VE", "YOU HAVE"), ("YOU'LL", "YOU WILL"),
   ("YOU'D", "YOU WOULD"),
   ("HE'S", "HE IS"), ("HE'LL", "HE WILL"), ("HE'D", "HE WOULD"),
   ("SHE'S", "SHE IS"), ("SHE'LL", "SHE WILL"), ("SHE'D", "SHE WOULD"),
   ("IT'S", "IT IS"), ("IT'LL", "IT WILL"), ("IT'D", "IT WOULD"),
   ("WE'RE", "WE ARE"), ("WE'VE", "WE HAVE"), ("WE'LL", "WE WILL"),
   ("WE'D", "WE WOULD"),
   ("THEY'RE", "THEY ARE"), ("THEY'VE", "THEY HAVE"), ("THEY'LL", "THEY WILL"),
   ("THEY'D", "THEY WOULD"),
   ("THAT'S", "THAT IS"), ("THAT'LL", "THAT WILL"), ("THAT'D", "THAT WOULD"),
   ("WHO'S", "WHO IS"), ("WHO'LL", "WHO WILL"), ("WHO'D", "WHO WOULD"),
   ("WHAT'S", "WHAT IS"), ("WHAT'LL", "WHAT WILL"), ("WHAT'D", "WHAT WOULD"),
   ("WHERE'S", "WHERE IS"), ("WHERE'LL", "WHERE WILL"), ("WHERE'D", "WHERE WOULD"),
   ("WHEN'S", "WHEN IS"), ("WHEN'LL", "WHEN WILL"), ("WHEN'D", "WHEN WOULD"),
   ("WHY'S", "WHY IS"), ("WHY'LL", "WHY WILL"), ("WHY'D", "WHY WOULD"),
   ("HOW'S", "HOW IS"), ("HOW'LL", "HOW WILL"), ("HOW'D", "HOW WOULD"),
   ("CAN'T", "CANNOT"), ("WON'T", "WILL NOT"), ("DON'T", "DO NOT"),
   ("DOESN'T", "DOES NOT"), ("DIDN'T", "DID NOT"), ("HAVEN'T", "HAVE NOT"),
   ("HASN'T", "HAS NOT"), ("HADN'T", "HAD NOT"), ("AREN'T", "ARE NOT"),
   ("ISN'T", "IS NOT"), ("WASN'T", "WAS NOT"), ("WEREN'T", "WERE NOT"),
   ("SHOULDN'T", "SHOULD NOT"), ("WOULDN'T", "WOULD NOT"),
   ("COULDN'T", "COULD NOT"), ("MIGHTN'T", "MIGHT NOT"),
   ("MUSTN'T", "MUST NOT"), ("NEEDN'T", "NEED NOT"),
   ("'LL", "WILL"), ("'VE", "HAVE"), ("'RE", "ARE"), ("'D", "WOULD"),
   ("LET'S", "LET US"), ("AIN'T", "IS NOT")]

/-! ## `_preprocess_special_patterns`

Each `re.sub` call of the source is modelled as a left-to-right scan
(`runSub`): at every position one match is attempted; on success the
replacement is emitted and scanning resumes after the matched span (the
replacement itself is not rescanned, as in `re.sub`), otherwise one
character is emitted.  Word boundaries `\b` are judged against the
original text, so the scanner carries whether the previously consumed
original character was a word character. -/

/-- A match attempt: given whether the previous original character is a
word character and the remaining input, return on success the
replacement, whether the last matched character is a word character, and
the rest of the input.  A successful match always consumes at least one
character. -/
def SubMatcher : Type := Bool → List Char → Option (List Char × Bool × List Char)

/-- `\b` after a match group: next character absent or not a word character. -/
def boundaryAfter : List Char → Bool
  | [] => true
  | c :: _ => !isWordChar c

def runSub (m : SubMatcher) : Nat → Bool → List Char → List Char
  | 0, _, s => s
  | _ + 1, _, [] => []
  | fuel + 1, prevW, c :: rest =>
    match m prevW (c :: rest) with
    | some (rep, lastW, rem) => rep ++ runSub m fuel lastW rem
    | none => c :: runSub m fuel (isWordChar c) rest

/-- Apply one substitution pass over the whole text.  Each step of
`runSub` consumes at least one input character, so the input length is
enough fuel. -/
def applySub (m : SubMatcher) (s : List Char) : List Char :=
  runSub m s.length false s

/-- `re.sub(r'\s*->\s*', ' TO ', text)`. -/
def matchArrowTo : SubMatcher := fun _ s =>
  let sp := s.span pyIsSpace
  match sp.2 with
  | '-' :: '>' :: r2 => some (" TO ".data, false, (r2.span pyIsSpace).2)
  | _ => none

/-- `re.sub(r'\s*<-\s*', ' FROM ', text)`. -/
def matchArrowFrom : SubMatcher := fun _ s =>
  let sp := s.span pyIsSpace
  match sp.2 with
  | '<' :: '-' :: r2 => some (" FROM ".data, false, (r2.span pyIsSpace).2)
  | _ => none

/-- `expand_thousands` replacement: `group(1)` is the 1–2 digit
thousands count.  One digit: word from the 1–9 table (`dict.get` keeps
an unmapped '0' as is) plus " THOUSAND"; two digits: word from the round
tens table plus " THOUSAND", otherwise just drop the comma. -/
def expandThousandsGroup (g : List Char) : List Char :=
  match g with
  | [d] =>
    (match ([('1', "ONE"), ('2', "TWO"), ('3', "THREE"), ('4', "FOUR"),
            ('5', "FIVE"), ('6', "SIX"), ('7', "SEVEN"), ('8', "EIGHT"),
            ('9', "NINE")].find? (fun p => p.1 == d)) with
     | some p => p.2.data ++ " THOUSAND".data
     | none => [d] ++ " THOUSAND".data)
  | [a, b] =>
    (match ([("10", "TEN"), ("11", "ELEVEN"), ("12", "TWELVE"),
            ("13", "THIRTEEN"), ("14", "FOURTEEN"), ("15", "FIFTEEN"),
            ("16", "SIXTEEN"), ("17", "SEVENTEEN"), ("18", "EIGHTEEN"),
            ("19", "NINETEEN"), ("20", "TWENTY"), ("30", "THIRTY"),
            ("40", "FORTY"), ("50", "FIFTY"), ("60", "SIXTY"),
            ("70", "SEVENTY"), ("80", "EIGHTY"),
            ("90", "NINETY")].find? (fun p => p.1.data == [a, b])) with
     | some p => p.2.data ++ " THOUSAND".data
     | none => [a, b] ++ "000".data)
  | g => g ++ "000".data

/-- `re.sub(r'\b(\d{1,2}),000\b', expand_thousands, text)`: the greedy
two-digit group is tried first, then one digit. -/
def matchThousands : SubMatcher := fun prevW s =>
  if prevW then none
  else
    match s with
    | d1 :: rest =>
      if !isAsciiDigit d1 then none
      else
        let oneDigit : Option (List Char × Bool × List Char) :=
          match rest with
          | ',' :: '0' :: '0' :: '0' :: r =>
            if boundaryAfter r then some (expandThousandsGroup [d1], true, r) else none
          | _ => none
        match rest with
        | d2 :: ',' :: '0' :: '0' :: '0' :: r =>
          if isAsciiDigit d2 && boundaryAfter r then
            some (expandThousandsGroup [d1, d2], true, r)
          else oneDigit
        | _ => oneDigit
    | [] => none

/-- `re.sub(r'(\d+),(\d{3})', r'\1\2', text)`: drop a comma between a
digit run and (at least) three following digits. -/
def matchCommaGroup : SubMatcher := fun _ s =>
  let sp := s.span isAsciiDigit
  if sp.1.isEmpty then none
  else
    match sp.2 with
    | ',' :: e1 :: e2 :: e3 :: r =>
      if isAsciiDigit e1 && isAsciiDigit e2 && isAsciiDigit e3 then
        some (sp.1 ++ [e1, e2, e3], true, r)
      else none
    | _ => none

/-- `re.sub(r'\b([A-Z]{1,3})-(\d{1,3})\b', r'\1 \2', text)`: hyphenated
aircraft type codes (PC-12 → PC 12).  A counted group `[A-Z]{1,3}`
followed by a different character class matches only when the full
letter run at the position has that length, so the maximal runs are
tested directly. -/
def matchHyphenCode : SubMatcher := fun prevW s =>
  if prevW then none
  else
    let ls := s.span isAsciiUpper
    if ls.1.isEmpty || ls.1.length > 3 then none
    else
      match ls.2 with
      | '-' :: r2 =>
        let ds := r2.span isAsciiDigit
        if ds.1.isEmpty || ds.1.length > 3 || !boundaryAfter ds.2 then none
        else some (ls.1 ++ [' '] ++ ds.1, true, ds.2)
      | _ => none

/-- `expand_mixed_callsign` / `expand_callsign` spacing: the characters
of a group joined by single spaces. -/
def spaceOut (l : List Char) : List Char :=
  List.intercalate [' '] (l.map (fun c => [c]))

/-- `re.sub(r'\b([A-Z]{1,2})(\d{1,4})([A-Z]{1,3})\b', expand_mixed_callsign, text)`:
N0KW → N 0 K W. -/
def matchMixedCallsign : SubMatcher := fun prevW s =>
  if prevW then none
  else
    let l1 := s.span isAsciiUpper
    if l1.1.isEmpty || l1.1.length > 2 then none
    else
      let ds := l1.2.span isAsciiDigit
      if ds.1.isEmpty || ds.1.length > 4 then none
      else
        let l2 := ds.2.span isAsciiUpper
        if l2.1.isEmpty || l2.1.length > 3 || !boundaryAfter l2.2 then none
        else
          some (spaceOut l1.1 ++ [' '] ++ spaceOut ds.1 ++ [' '] ++ spaceOut l2.1,
                true, l2.2)

/-- `re.sub(r'\b([A-Z]{1,4})(\d{2,4})\b', expand_callsign, text)`:
GPD848 → G P D 8 4 8. -/
def matchCallsign : SubMatcher := fun prevW s =>
  if prevW then none
  else
    let ls := s.span isAsciiUpper
    if ls.1.isEmpty || ls.1.length > 4 then none
    else
      let ds := ls.2.span isAsciiDigit
      if ds.1.length < 2 || ds.1.length > 4 || !boundaryAfter ds.2 then none
      else some (spaceOut ls.1 ++ [' '] ++ spaceOut ds.1, true, ds.2)

/-- `re.sub(r'\b([A-Z]{1,4})(\d{2,4})([A-Z])\b', expand_callsign_with_suffix, text)`:
GPD848X → G P D 8 4 8 X.  The third group is one letter, so the letter
run after the digits must have length exactly one. -/
def matchCallsignOneLetter : SubMatcher := fun prevW s =>
  if prevW then none
  else
    let ls := s.span isAsciiUpper
    if ls.1.isEmpty || ls.1.length > 4 then none
    else
      let ds := ls.2.span isAsciiDigit
      if ds.1.length < 2 || ds.1.length > 4 then none
      else
        match ds.2 with
        | c :: r3 =>
          if isAsciiUpper c && boundaryAfter r3 then
            some (spaceOut ls.1 ++ [' '] ++ spaceOut ds.1 ++ [' ', c], true, r3)
          else none
        | [] => none

/-- `_preprocess_special_patterns`: the eight `re.sub` passes in source
order. -/
def preprocessSpecialPatterns (s : List Char) : List Char :=
  applySub matchCallsignOneLetter
    (applySub matchCallsign
      (applySub matchMixedCallsign
        (applySub matchHyphenCode
          (applySub matchCommaGroup
            (applySub matchThousands
              (applySub matchArrowFrom
                (applySub matchArrowTo s)))))))

/-! ## Normalizer stages 3–10 -/

/-- `_remove_diacritics`: NFD decomposition followed by removal of
combining marks.  Decomposition is modelled as the identity (input
characters are taken as already decomposed; exact for ASCII), so the
stage removes the combining diacritical marks block U+0300–U+036F. -/
def removeDiacritics (s : List Char) : List Char :=
  s.filter (fun c => !(0x300 ≤ c.toNat && c.toNat ≤ 0x36F))

/-- Case-insensitive literal prefix test (both sides upcased). -/
def ciStartsWith (pat s : List Char) : Bool :=
  startsWithSeq (pyUpper pat) (pyUpper (s.take pat.length))

/-- Remove every case-insensitive occurrence of the literal `pat`
(`re.sub(tag_pattern, '', text, flags=re.IGNORECASE)` for a literal
pattern).  `pat` is nonempty, so the input length is enough fuel. -/
def removeAllCI (pat : List Char) : Nat → List Char → List Char
  | 0, s => s
  | _ + 1, [] => []
  | fuel + 1, c :: rest =>
    if ciStartsWith pat (c :: rest) then
      removeAllCI pat fuel ((c :: rest).drop pat.length)
    else c :: removeAllCI pat fuel rest

/-- `_remove_tags`: strip each removable tag in turn. -/
def removeTagsText (s : List Char) : List Char :=
  removableTags.foldl (fun t tag => removeAllCI tag.data t.length t) s

/-- The trailing-punctuation stripping loop of `_expand_phonetic_letters`:
pop characters from the end while the last one is not alphanumeric.
Returns (clean word, trailing punctuation). -/
def stripTrailingPunct (w : List Char) : List Char × List Char :=
  let sp := w.reverse.span (fun c => !isAsciiAlnum c)
  (sp.2.reverse, sp.1.reverse)

/-- `^\d{2}[LRC]$`: runway designator token. -/
def isRunwayToken : List Char → Bool
  | [a, b, c] => isAsciiDigit a && isAsciiDigit b && (c == 'L' || c == 'R' || c == 'C')
  | _ => false

/-- `{'L': 'LEFT', 'R': 'RIGHT', 'C': 'CENTER'}.get(letter, letter)`. -/
def runwayLetterWord (c : Char) : List Char :=
  if c = 'L' then "LEFT".data
  else if c = 'R' then "RIGHT".data
  else if c = 'C' then "CENTER".data
  else [c]

/-- `^[A-Z]\d+$`: one uppercase letter then digits. -/
def isLetterDigits : List Char → Bool
  | c :: ds => isAsciiUpper c && !ds.isEmpty && ds.all isAsciiDigit
  | [] => false

/-- `^\d+[A-Z]$`: digits then one uppercase letter. -/
def isDigitsLetter (w : List Char) : Bool :=
  match w.reverse with
  | c :: ds => isAsciiUpper c && !ds.isEmpty && ds.all isAsciiDigit
  | [] => false

/-- The per-token branch chain of `_expand_phonetic_letters`, applied to
the original word `w`, its clean part and its trailing punctuation. -/
def expandCleanWord (w clean punct : List Char) : List Char :=
  match clean with
  | [] => w
  | [c] =>
    -- a single character matches none of the later multi-character patterns
    if isAsciiAlpha c then
      match phoneticLookup c.toUpper with
      | some p =>
        -- `EXCLUDED_WORDS = {'I', 'A'}`: keep the original word
        if c.toUpper = 'I' || c.toUpper = 'A' then w else p.data ++ punct
      | none => w
    else w
  | _ =>
    if isRunwayToken clean then
      clean.take 2 ++ [' '] ++
        (match clean with
         | [_, _, c] => runwayLetterWord c
         | _ => []) ++ punct
    else if isLetterDigits clean then
      (match clean with
       | c :: ds =>
         (match phoneticLookup c with
          | some p => p.data
          | none => [c]) ++ [' '] ++ ds
       | [] => []) ++ punct
    else if isDigitsLetter clean then
      clean.dropLast ++ [' '] ++
        (match clean.getLast? with
         | some c =>
           match phoneticLookup c with
           | some p => p.data
           | none => [c]
         | none => []) ++ punct
    else w

def expandPhoneticWord (w : List Char) : List Char :=
  expandCleanWord w (stripTrailingPunct w).1 (stripTrailingPunct w).2

/-- `_expand_phonetic_letters`: split on whitespace, expand each token,
rejoin with single spaces. -/
def expandPhoneticLetters (s : List Char) : List Char :=
  joinSpace ((pySplit s).map expandPhoneticWord)

/-! ### `_expand_numbers`

`re.sub(r'\d+\.\d+|\d+', expand_number_match, text)`: scanning left to
right, a maximal digit run followed by '.' and another digit run is a
decimal; otherwise the maximal digit run alone matches.  Chunking the
text into maximal digit runs and single other characters makes this
structure explicit. -/

inductive NumChunk where
  | digits (run : List Char)
  | other (c : Char)
deriving DecidableEq

/-- Whether a text begins with a digit. -/
def headIsDigit : List Char → Bool
  | [] => false
  | c :: _ => isAsciiDigit c

/-- Group a text into maximal digit runs and single other characters. -/
def numChunks : List Char → List NumChunk
  | [] => []
  | c :: rest =>
    if isAsciiDigit c then
      match numChunks rest with
      | NumChunk.digits d :: t => NumChunk.digits (c :: d) :: t
      | cs => NumChunk.digits [c] :: cs
    else NumChunk.other c :: numChunks rest

/-- Digit-by-digit expansion of one run (`' '.join(NUMBER_WORDS.get(d, d) …)`). -/
def digitRunWords (run : List Char) : List Char :=
  List.intercalate [' '] (run.map numberWordOf)

/-- Emit the chunks: a `digits '.' digits` triple becomes
`integer DECIMAL fraction` (`expand_number_match` on a decimal match),
a lone digit run expands digit by digit, other characters pass through. -/
def emitNumChunks : List NumChunk → List Char
  | NumChunk.digits d :: NumChunk.other '.' :: NumChunk.digits e :: rest =>
    digitRunWords d ++ " DECIMAL ".data ++ digitRunWords e ++ emitNumChunks rest
  | NumChunk.digits d :: rest => digitRunWords d ++ emitNumChunks rest
  | NumChunk.other c :: rest => c :: emitNumChunks rest
  | [] => []

def expandNumbers (s : List Char) : List Char := emitNumChunks (numChunks s)

/-- `word.endswith("'S")`. -/
def endsWithApoS (w : List Char) : Bool :=
  startsWithSeq ("'S".data.reverse) w.reverse

/-- `_expand_contractions`: token-for-token table lookup.  A token
ending in `'S` is treated as a possessive and kept unchanged — as is
any other unmapped token, so both fall-through branches keep the word. -/
def expandContractions (s : List Char) : List Char :=
  joinSpace ((pySplit s).map (fun w =>
    match contractionsTable.find? (fun p => p.1.data == w) with
    | some p => p.2.data
    | none => if containsSeq "'S".data w && endsWithApoS w then w else w))

/-- `_apply_spelling_corrections`: token-for-token lookup with
fall-through. -/
def applySpellingCorrections (s : List Char) : List Char :=
  joinSpace ((pySplit s).map (fun w =>
    match spellingCorrections.find? (fun p => p.1.data == w) with
    | some p => p.2.data
    | none => w))

/-- `_remove_punctuation`: `re.sub(r'[^\w\s]', '', text)` — keep word
characters and whitespace. -/
def removePunctuation (s : List Char) : List Char :=
  s.filter (fun c => isWordChar c || pyIsSpace c)

/-- `_clean_whitespace`: collapse whitespace runs to single spaces and
strip the ends — exactly split-and-rejoin. -/
def cleanWhitespace (s : List Char) : List Char := joinSpace (pySplit s)

/-! ## `ATCTextNormalizer` configuration and `normalize_text` -/

/-- The constructor switches of `ATCTextNormalizer` with their default
values.  `output_case` is lower-cased at construction; the defaults and
all claims use "upper".  The optional custom correction/contraction
maps default to empty merges, leaving the class tables. -/
structure NormalizerConfig where
  applySpelling : Bool := true
  normalizeDiacritics : Bool := true
  expandPhonetic : Bool := true
  expandNums : Bool := true
  expandContr : Bool := true
  uppercase : Bool := true
  removeTags : Bool := true
  removePunct : Bool := true
  outputCase : String := "upper"

/-- `normalize_text`: the ten stages in source order. -/
def normalizeTextL (cfg : NormalizerConfig) (s : List Char) : List Char :=
  if s.isEmpty then s
  else
    let t1 := if cfg.uppercase then pyUpper s else s
    let t2 := preprocessSpecialPatterns t1
    let t3 := if cfg.normalizeDiacritics then removeDiacritics t2 else t2
    let t4 := if cfg.removeTags then removeTagsText t3 else t3
    let t5 := if cfg.expandPhonetic then expandPhoneticLetters t4 else t4
    let t6 := if cfg.expandNums then expandNumbers t5 else t5
    let t7 := if cfg.expandContr then expandContractions t6 else t6
    let t8 := if cfg.applySpelling then applySpellingCorrections t7 else t7
    let t9 := if cfg.removePunct then removePunctuation t8 else t8
    let t10 := cleanWhitespace t9
    if cfg.outputCase = "lower" then pyLower t10
    else if cfg.outputCase = "upper" then pyUpper t10
    else t10

def normalizeText (cfg : NormalizerConfig) (s : String) : String :=
  String.mk (normalizeTextL cfg s.data)

/-- `normalize` under the default configuration. -/
def normalizeDefault (s : String) : String := normalizeText {} s

/-- `batch_normalize`. -/
def batchNormalize (cfg : NormalizerConfig) (ts : List String) : List String :=
  ts.map (normalizeText cfg)

/-! ## `TransmissionFilter` (`src/preprocessing/filters.py`)

A compiled regex is modelled as its source text (`pattern.pattern`,
used verbatim in exclusion reasons) together with its `search` predicate.
Every default exclusion tag and all quality patterns except
`\[.*\?\]` are escaped literals searched case-insensitively. -/

structure TagPattern where
  source : String
  test : String → Bool

/-- Case-insensitive literal search (`re.compile(re.escape-style literal,
re.IGNORECASE).search`). -/
def ciContains (lit : String) (text : String) : Bool :=
  containsSeq (pyUpper lit.data) (pyUpper text.data)

def litTag (source lit : String) : TagPattern :=
  ⟨source, fun t => ciContains lit t⟩

/-- `DEFAULT_EXCLUSION_TAGS`, with each regex source kept verbatim. -/
def defaultExclusionTags : List TagPattern :=
  [litTag "\\[NO_ENG\\]" "[NO_ENG]",
   litTag "\\[\\|_NO_ENG\\]" "[|_NO_ENG]",
   litTag "\\[CZECH_\\]" "[CZECH_]",
   litTag "\\[FRENCH_\\]" "[FRENCH_]",
   litTag "\\[GERMAN_\\]" "[GERMAN_]",
   litTag "\\[SPANISH_\\]" "[SPANISH_]",
   litTag "\\[UNINTELLIGIBLE\\]" "[UNINTELLIGIBLE]",
   litTag "\\[\\|_UNINTELLIGIBLE\\]" "[|_UNINTELLIGIBLE]",
   litTag "\\[CROSSTALK\\]" "[CROSSTALK]",
   litTag "\\[NOISE\\]" "[NOISE]",
   litTag "\\[STATIC\\]" "[STATIC]",
   litTag "\\[REDACTED\\]" "[REDACTED]",
   litTag "\\[UNCLEAR\\]" "[UNCLEAR]"]

/-- After a '[', whether "?]" is reachable without crossing a newline:
the tail of a `\[.*\?\]` match (`.` does not match a newline). -/
def existsQClose : List Char → Bool
  | '?' :: ']' :: _ => true
  | '\n' :: _ => false
  | _ :: rest => existsQClose rest
  | [] => false

/-- `re.search(r'\[.*\?\]', text)` as existence of a match. -/
def matchBracketQuestion : List Char → Bool
  | '[' :: rest => existsQClose rest || matchBracketQuestion rest
  | _ :: rest => matchBracketQuestion rest
  | [] => false

/-- `QUALITY_PATTERNS`.  `<unk>` is a distinct entry in the source even
though case-insensitive matching makes it redundant next to `<UNK>`. -/
def defaultQualityPatterns : List TagPattern :=
  [⟨"\\[.*\\?\\]", fun t => matchBracketQuestion t.data⟩,
   litTag "\\(\\?\\)" "(?)",
   litTag "<UNK>" "<UNK>",
   litTag "<unk>" "<unk>",
   litTag "\\*\\*\\*" "***",
   litTag "---" "---"]

/-- The filter's configuration and state.  The manual-exclusion set is
modelled as a list (membership is what the source consults); entries
are stored upper-cased by `add_manual_exclusion` / `_load_manual_exclusions`. -/
structure TransmissionFilter where
  exclusionTags : List TagPattern := defaultExclusionTags
  excludeQualityIssues : Bool := true
  minLength : Nat := 3
  maxLength : Option Nat := none
  customFilter : Option (String → Bool) := none
  manualExclusions : List String := []

def pyUpperS (s : String) : String := String.mk (pyUpper s.data)

/-- `len(text.split())`. -/
def wordCount (text : String) : Nat := (pySplit text.data).length

/-- The quality patterns the constructor compiles: `QUALITY_PATTERNS`
when `exclude_quality_issues`, else none. -/
def activeQualityPatterns (f : TransmissionFilter) : List TagPattern :=
  if f.excludeQualityIssues then defaultQualityPatterns else []

/-- `should_exclude(text) -> (bool, reason)`: the source's rule chain in
order.  `if self.max_length` is Python truthiness, so `max_length = 0`
disables the upper bound. -/
def shouldExclude (f : TransmissionFilter) (text : String) : Bool × String :=
  if text = "" || (pyStrip text.data).isEmpty then (true, "empty")
  else if f.manualExclusions.contains (pyUpperS text) then (true, "manual_exclusion")
  else
    match f.exclusionTags.find? (fun p => p.test text) with
    | some p => (true, "exclusion_tag: " ++ p.source)
    | none =>
      match (activeQualityPatterns f).find? (fun p => p.test text) with
      | some p => (true, "quality_issue: " ++ p.source)
      | none =>
        if wordCount text < f.minLength then
          (true, "too_short: " ++ toString (wordCount text) ++ " words")
        else if (match f.maxLength with
                 | some m => m ≠ 0 && wordCount text > m
                 | none => false) then
          (true, "too_long: " ++ toString (wordCount text) ++ " words")
        else
          match f.customFilter with
          | some g => if g text then (false, "") else (true, "custom_filter")
          | none => (false, "")

/-- `filter_texts` without reasons: keep the texts the filter admits. -/
def filterTexts (f : TransmissionFilter) (ts : List String) : List String :=
  ts.filter (fun t => !(shouldExclude f t).1)

/-! ### The specified rule order, as an explicit first-match-wins rule list
(spec §4.2: "First matching rule wins, checked in this order"). -/

def ruleEmpty (_f : TransmissionFilter) (t : String) : Option String :=
  if t = "" || (pyStrip t.data).isEmpty then some "empty" else none

def ruleManual (f : TransmissionFilter) (t : String) : Option String :=
  if f.manualExclusions.contains (pyUpperS t) then some "manual_exclusion" else none

def ruleTags (f : TransmissionFilter) (t : String) : Option String :=
  (f.exclusionTags.find? (fun p => p.test t)).map
    (fun p => "exclusion_tag: " ++ p.source)

def ruleQuality (f : TransmissionFilter) (t : String) : Option String :=
  ((activeQualityPatterns f).find? (fun p => p.test t)).map
    (fun p => "quality_issue: " ++ p.source)

def ruleTooShort (f : TransmissionFilter) (t : String) : Option String :=
  if wordCount t < f.minLength then
    some ("too_short: " ++ toString (wordCount t) ++ " words")
  else none

def ruleTooLong (f : TransmissionFilter) (t : String) : Option String :=
  if (match f.maxLength with
      | some m => m ≠ 0 && wordCount t > m
      | none => false) then
    some ("too_long: " ++ toString (wordCount t) ++ " words")
  else none

def ruleCustom (f : TransmissionFilter) (t : String) : Option String :=
  match f.customFilter with
  | some g => if g t then none else some "custom_filter"
  | none => none

/-- The seven exclusion rules in the specified order. -/
def orderedRules (f : TransmissionFilter) : List (String → Option String) :=
  [ruleEmpty f, ruleManual f, ruleTags f, ruleQuality f,
   ruleTooShort f, ruleTooLong f, ruleCustom f]

/-- The reason of the first rule that fires, if any. -/
def firstFiring (f : TransmissionFilter) (t : String) : Option String :=
  (orderedRules f).findSome? (fun r => r t)

/-! ### Manual-exclusion persistence -/

/-- `save_manual_exclusions`: two comment lines, a blank line, then the
entries, sorted (Python `sorted` on strings), one per line. -/
def saveManualExclusions (s : List String) : String :=
  String.mk
    ("# Manual Exclusions - One per line\n# Lines starting with # are comments\n\n".data ++
      ((s.mergeSort (fun a b => decide (a ≤ b))).map (fun e => e.data ++ ['\n'])).flatten)

/-- Split into lines as Python's text-mode read with universal newlines
delivers them (`open(path, 'r')`): a line break is '\n', a lone '\r',
or the pair '\r\n' counted once.  The strip below also removes the
terminator, so splitting is equivalent to Python's line iteration. -/
def splitOnNewline : List Char → List (List Char)
  | [] => [[]]
  | '\r' :: '\n' :: rest => [] :: splitOnNewline rest
  | c :: rest =>
    if c = '\n' || c = '\r' then [] :: splitOnNewline rest
    else
      match splitOnNewline rest with
      | l :: ls => (c :: l) :: ls
      | [] => [[c]]

/-- The per-line step of `_load_manual_exclusions` after stripping:
skip blank and `#`-comment lines, keep the upper-cased entry. -/
def loadKeep (l : List Char) : Option String :=
  if l.isEmpty || startsWithSeq "#".data l then none
  else some (String.mk (pyUpper l))

/-- `_load_manual_exclusions`: per line, strip; skip blank and
`#`-comment lines; add the upper-cased entry. -/
def loadManualExclusions (content : String) : List String :=
  ((splitOnNewline content.data).map pyStrip).filterMap loadKeep

/-! ## Audio quality scorer (`src/analysis/audio_quality.py`)

Samples are rationals.  Failures of the underlying numpy/librosa calls
(`ParameterError` for too-short input, `ZeroDivisionError`) are modelled
as `Except.error`; the exactly-specified return values are rationals and
the generic dB value is kept symbolic. -/

/-- An SNR result: an exact value (the guarded 0.0 / 60.0 paths) or the
symbolic `10*log10(signal/noise)` of the generic path. -/
inductive SnrVal where
  | val (q : ℚ)
  | logRatio (signal noise : ℚ)
deriving DecidableEq

/-- Sum of squares of a sample list. -/
def sumSq (l : List ℚ) : ℚ := (l.map (fun x => x * x)).sum

/-- `np.min` over a nonempty list (0 as the irrelevant empty default). -/
def minQ : List ℚ → ℚ
  | [] => 0
  | x :: xs => xs.foldl min x

/-- `np.percentile(xs, q)` with the default linear interpolation:
on the sorted data, index `h = (n-1)*q/100`, interpolating between the
neighbouring order statistics. -/
def percentileQ (xs : List ℚ) (q : ℚ) : ℚ :=
  let sorted := xs.mergeSort (fun a b => decide (a ≤ b))
  let n := sorted.length
  let h : ℚ := (n - 1 : ℚ) * q / 100
  let f : Nat := (⌊h⌋).toNat
  let lo := sorted.getD f 0
  let hi := sorted.getD (f + 1) lo
  lo + (h - (f : ℚ)) * (hi - lo)

/-- `librosa.util.frame(audio, frame_length, hop_length)` (frames as the
second axis): frame `i` is `audio[i*hop : i*hop + frame_length]`, with
`1 + (len - frame_length) / hop` frames.  Callers check the librosa
preconditions (`hop ≥ 1`, `len ≥ frame_length`). -/
def frameSignal (audio : List ℚ) (frameLength hop : Nat) : List (List ℚ) :=
  (List.range (1 + (audio.length - frameLength) / hop)).map
    (fun i => ((audio.drop (i * hop)).take frameLength))

/-- `int(0.025 * sample_rate)`: 25 ms frames. -/
def snrFrameLength (sr : Nat) : Nat := 25 * sr / 1000

/-- `int(0.010 * sample_rate)`: 10 ms hop. -/
def snrHopLength (sr : Nat) : Nat := 10 * sr / 1000

/-- The noise-power estimate of `calculate_snr`: mean squared amplitude
over the frames whose energy is at or below the 10th percentile of
per-frame energies; if no frame qualifies (impossible when frames are
nonempty, kept for fidelity), the minimum frame energy over the frame
length. -/
def noisePowerOf (audio : List ℚ) (sr : Nat) : ℚ :=
  let frames := frameSignal audio (snrFrameLength sr) (snrHopLength sr)
  let energies := frames.map sumSq
  let thresh := percentileQ energies 10
  let noiseFrames := ((frames.zip energies).filter
    (fun p => decide (p.2 ≤ thresh))).map (fun p => p.1)
  let total := (noiseFrames.map List.length).sum
  if total ≠ 0 then (noiseFrames.map sumSq).sum / (total : ℚ)
  else minQ energies / (snrFrameLength sr : ℚ)

/-- `calculate_snr`: 0.0 on empty audio; librosa's `ParameterError`s on
a degenerate hop/frame length or input shorter than one frame; the
fixed 60.0 dB ceiling when the noise power is exactly zero; otherwise
the symbolic `10*log10(signal_power/noise_power)`. -/
def calculateSnr (audio : List ℚ) (sr : Nat) : Except String SnrVal :=
  if audio.length = 0 then .ok (.val 0)
  else if snrHopLength sr = 0 then .error "librosa.util.frame: invalid hop_length"
  else if snrFrameLength sr = 0 then .error "librosa.util.frame: invalid frame_length"
  else if audio.length < snrFrameLength sr then
    .error "librosa.util.frame: input too short"
  else if noisePowerOf audio sr = 0 then .ok (.val 60)
  else .ok (.logRatio (sumSq audio / (audio.length : ℚ)) (noisePowerOf audio sr))

/-- The aggressiveness → energy-percentile table of
`calculate_speech_ratio` (`percentiles.get(aggressiveness, 40)`). -/
def vadPercentile (aggressiveness : Nat) : ℚ :=
  if aggressiveness = 0 then 20
  else if aggressiveness = 1 then 30
  else if aggressiveness = 2 then 40
  else if aggressiveness = 3 then 50
  else 40

/-- `calculate_speech_ratio`: non-overlapping 30 ms frames (a final
partial frame is dropped); fraction of frames whose energy strictly
exceeds the configured percentile of the frame energies.  A zero frame
length makes Python's `len(audio) // frame_length` raise
`ZeroDivisionError`. -/
def calculateSpeechRatio (audio : List ℚ) (sr : Nat) (aggressiveness : Nat := 2) :
    Except String ℚ :=
  if audio.length = 0 then .ok 0
  else
    let frameLength := sr * 30 / 1000
    if frameLength = 0 then .error "ZeroDivisionError: integer division by zero"
    else
      let numFrames := audio.length / frameLength
      if numFrames = 0 then .ok 0
      else
        let trimmed := audio.take (numFrames * frameLength)
        let frames := (List.range numFrames).map
          (fun i => (trimmed.drop (i * frameLength)).take frameLength)
        let energies := frames.map sumSq
        let thresh := percentileQ energies (vadPercentile aggressiveness)
        let speechFrames := (energies.filter (fun e => decide (thresh < e))).length
        .ok ((speechFrames : ℚ) / (numFrames : ℚ))

/-- One ranked guess of the external `langdetect` detector. -/
structure LangGuess where
  lang : String
  prob : ℚ

/-- `detect_language`.  The external `langdetect.detect_langs` call is
modelled as an explicit function parameter: `.error` is a
`LangDetectException`, `.ok` the ranked guesses. -/
def detectLanguage (detector : String → Except Unit (List LangGuess))
    (text : String) : String × ℚ :=
  if text = "" || (pyStrip text.data).length < 3 then ("unknown", 0)
  else
    match detector text with
    | .error _ => ("unknown", 0)
    | .ok [] => ("unknown", 0)
    | .ok (g :: _) => (g.lang, g.prob)

/-- Python 3 `round(q, n)`: round half to even at `n` decimal places
(modelled exactly on rationals). -/
def roundHalfEven (q : ℚ) : ℤ :=
  let f := ⌊q⌋
  let r := q - (f : ℚ)
  if r < 1 / 2 then f
  else if r > 1 / 2 then f + 1
  else if f % 2 = 0 then f else f + 1

def pyRound (q : ℚ) (n : Nat) : ℚ :=
  (roundHalfEven (q * 10 ^ n) : ℚ) / 10 ^ n

/-- `round(snr_db, 2)`: exact on the guarded values; the symbolic dB
value stays symbolic. -/
def roundSnr (v : SnrVal) (n : Nat) : SnrVal :=
  match v with
  | .val q => .val (pyRound q n)
  | .logRatio s t => .logRatio s t

/-- The metrics record returned by `calculate_all_metrics`. -/
structure QualityMetrics where
  snr_db : SnrVal
  language : String
  language_confidence : ℚ
  speech_ratio : ℚ
deriving DecidableEq

/-- `calculate_all_metrics`: SNR, then language, then speech ratio, with
the source's rounding. -/
def calculateAllMetrics (detector : String → Except Unit (List LangGuess))
    (audio : List ℚ) (text : String) (sr : Nat) : Except String QualityMetrics := do
  let snr ← calculateSnr audio sr
  let lang := detectLanguage detector text
  let ratio ← calculateSpeechRatio audio sr
  pure { snr_db := roundSnr snr 2,
         language := lang.1,
         language_confidence := pyRound lang.2 3,
         speech_ratio := pyRound ratio 3 }

/-- A concrete stand-in detector used to evaluate the model at specific
inputs. -/
def demoDetector : String → Except Unit (List LangGuess) :=
  fun _ => .ok [⟨"en", 9 / 10⟩]

/-! # Helper lemmas -/

theorem str_append_ne_empty (s t : String) (h : s.data ≠ []) : s ++ t ≠ "" := by
  intro he
  apply h
  have hd := congrArg String.data he
  rw [String.data_append] at hd
  exact (List.append_eq_nil.mp hd).1

theorem pyRound_zero (n : Nat) : pyRound 0 n = 0 := by
  unfold pyRound roundHalfEven
  norm_num

/-! # Claim theorems -/

/-- C1.  Under the default configuration, `normalize` maps
"N 4 5 6 taxi to runway 27L, contact tower 118.3" to exactly
"NOVEMBER FOUR FIVE SIX TAXI TO RUNWAY TWO SEVEN LEFT CONTACT TOWER ONE
ONE EIGHT DECIMAL THREE". -/
theorem c1_end_to_end_normalize :
    normalizeDefault "N 4 5 6 taxi to runway 27L, contact tower 118.3" =
      "NOVEMBER FOUR FIVE SIX TAXI TO RUNWAY TWO SEVEN LEFT CONTACT TOWER ONE ONE EIGHT DECIMAL THREE" :=
  rfl

/-- C2, counterexample.  The claim says "I" and "A" are never
phonetically expanded, even inside single-letter-plus-digits tokens.  On
the code, the exclusion is applied only in the bare-single-letter
branch: the token "A1" takes the letter-plus-digits branch and its "A"
is expanded, `normalize("A1") = "ALPHA ONE"`, not "A ONE". -/
theorem c2_letter_a_expanded_in_combo :
    normalizeDefault "A1" = "ALPHA ONE" ∧ normalizeDefault "A1" ≠ "A ONE" := by
  constructor
  · rfl
  · decide

/-- C2, amended.  Bare single-letter tokens "I"/"A" (with optional
trailing punctuation) are never phonetically expanded, and every other
bare NATO letter is expanded to its phonetic word; but inside larger
expansion contexts (single-letter-plus-digits or digits-plus-single-letter
tokens) "I" and "A" are expanded like any other letter
(`normalize("A1") = "ALPHA ONE"`). -/
theorem c2_bare_letter_exception :
    (∀ w : List Char,
        (stripTrailingPunct w).1 = ['I'] ∨ (stripTrailingPunct w).1 = ['i'] ∨
          (stripTrailingPunct w).1 = ['A'] ∨ (stripTrailingPunct w).1 = ['a'] →
        expandPhoneticWord w = w)
    ∧ (∀ p ∈ phoneticAlphabet, p.1 ≠ 'I' → p.1 ≠ 'A' →
        expandPhoneticWord [p.1] = p.2.data)
    ∧ normalizeDefault "I need A clearance" = "I NEED A CLEARANCE"
    ∧ normalizeDefault "N 1 2 3" = "NOVEMBER ONE TWO THREE"
    ∧ normalizeDefault "A1" = "ALPHA ONE"
    ∧ normalizeDefault "1I" = "ONE INDIA" := by
  refine ⟨?_, by decide, rfl, rfl, rfl, rfl⟩
  intro w h
  rcases h with h | h | h | h <;>
    · unfold expandPhoneticWord
      rw [h]
      rfl

theorem c2_bare_letter_exception_witness :
    expandPhoneticWord "I,".data = "I,".data ∧ expandPhoneticWord ['N'] = "NOVEMBER".data := by
  constructor
  · exact c2_bare_letter_exception.1 "I,".data (Or.inl (by decide))
  · exact c2_bare_letter_exception.2.1 ('N', "NOVEMBER") (by decide) (by decide) (by decide)

set_option maxRecDepth 8000 in
/-- C4, counterexample.  `normalize` is not idempotent under the default
configuration: `normalize(".B") = "B"` (the leading punctuation blocks
the phonetic branch and is only removed by the later punctuation stage),
and a second pass expands the now-bare letter, `normalize("B") = "BRAVO"`. -/
theorem c4_not_idempotent :
    normalizeDefault ".B" = "B" ∧ normalizeDefault "B" = "BRAVO" ∧
      normalizeDefault (normalizeDefault ".B") ≠ normalizeDefault ".B" := by
  exact ⟨rfl, rfl, by decide⟩

set_option maxRecDepth 8000 in
set_option maxHeartbeats 2000000 in
/-- C4, amended.  Idempotence fails in general (counterexample ".B"); it
does hold on the spec's §8 example inputs, whose normal forms are fixed
points of `normalize` under the default configuration. -/
theorem c4_idempotent_on_examples :
    normalizeDefault (normalizeDefault "N 4 5 6 taxi to runway 27L, contact tower 118.3") =
      normalizeDefault "N 4 5 6 taxi to runway 27L, contact tower 118.3"
    ∧ normalizeDefault (normalizeDefault "I need A clearance") =
        normalizeDefault "I need A clearance"
    ∧ normalizeDefault (normalizeDefault "N 1 2 3") = normalizeDefault "N 1 2 3"
    ∧ normalizeDefault (normalizeDefault "Contact tower 118.3") =
        normalizeDefault "Contact tower 118.3"
    ∧ normalizeDefault (normalizeDefault "Roger.") = normalizeDefault "Roger."
    ∧ normalizeDefault (normalizeDefault "Runway 27L") = normalizeDefault "Runway 27L" := by
  refine ⟨by decide, by decide, by decide, by decide, by decide, by decide⟩

theorem percentileQ_singleton (x q : ℚ) : percentileQ [x] q = x := by
  have hms : ([x] : List ℚ).mergeSort (fun a b => decide (a ≤ b)) = [x] :=
    List.perm_singleton.mp (List.mergeSort_perm _ _)
  unfold percentileQ
  rw [hms]
  norm_num

/-- C3.  The claim says `calculate_all_metrics` returns a metrics record
for every audio array, including non-empty arrays shorter than one 25 ms
frame.  The code violates this: on a one-sample clip at 16 kHz,
`calculate_snr` hands the array to `librosa.util.frame` with
`frame_length = 400`, which raises `ParameterError` ("Input is too
short"), so no record is returned.  The empty-audio contract itself
holds: on empty audio the record is returned with snr_db = 0.0 and
speech_ratio = 0.0 for every detector, text and sample rate. -/
theorem c3_short_audio_raises :
    calculateAllMetrics demoDetector [(1 : ℚ) / 2] "hello" 16000 =
      .error "librosa.util.frame: input too short"
    ∧ (∀ (det : String → Except Unit (List LangGuess)) (text : String) (sr : Nat),
        calculateAllMetrics det [] text sr =
          .ok { snr_db := .val 0,
                language := (detectLanguage det text).1,
                language_confidence := pyRound (detectLanguage det text).2 3,
                speech_ratio := 0 }) := by
  constructor
  · rfl
  · intro det text sr
    have h2 : pyRound 0 2 = 0 := pyRound_zero 2
    have h3 : pyRound 0 3 = 0 := pyRound_zero 3
    simp [calculateAllMetrics, calculateSnr, calculateSpeechRatio, roundSnr,
      h2, h3, Bind.bind, Except.bind, Pure.pure, Except.pure]

/-- C9.  Whenever the estimated noise power is exactly zero (and the
input passes librosa's framing preconditions), `calculate_snr` returns
the fixed 60.0 dB ceiling — an exact finite value, not NaN, not
infinite, not an exception. -/
theorem c9_zero_noise_ceiling (audio : List ℚ) (sr : Nat) (h0 : audio ≠ [])
    (hh : snrHopLength sr ≠ 0) (hf : snrFrameLength sr ≠ 0)
    (hlen : snrFrameLength sr ≤ audio.length)
    (hn : noisePowerOf audio sr = 0) :
    calculateSnr audio sr = .ok (.val 60) := by
  have h0' : audio.length ≠ 0 := by simpa using h0
  simp [calculateSnr, h0', hh, hf, Nat.not_lt.mpr hlen, hn]

/-- The 60 dB ceiling at a concrete input: a silent (all-zeros) clip of
exactly one frame (`int(0.025*100) = 2` samples at a 100 Hz rate). -/
theorem c9_zero_noise_ceiling_witness :
    calculateSnr [(0 : ℚ), 0] 100 = .ok (.val 60) := by
  have hn : noisePowerOf [(0 : ℚ), 0] 100 = 0 := by
    have hs : sumSq [(0 : ℚ), 0] = 0 := by norm_num [sumSq]
    have hfr : frameSignal [(0 : ℚ), 0] (snrFrameLength 100) (snrHopLength 100) =
        [[(0 : ℚ), 0]] := rfl
    unfold noisePowerOf
    rw [hfr]
    simp [hs, percentileQ_singleton]
  exact c9_zero_noise_ceiling [(0 : ℚ), 0] 100 (by decide) (by decide) (by decide)
    (by decide) hn

/-- A text that does not start with a digit chunks to an empty list or
to an `other`-headed list. -/
theorem numChunks_head_other (rest : List Char) (h : headIsDigit rest = false) :
    numChunks rest = [] ∨ ∃ c cs, numChunks rest = NumChunk.other c :: cs := by
  cases rest with
  | nil => exact Or.inl rfl
  | cons c r =>
    have hc : isAsciiDigit c = false := by simpa [headIsDigit] using h
    exact Or.inr ⟨c, numChunks r, by simp [numChunks, hc]⟩

/-- One unfolding of `numChunks` at a digit head. -/
theorem numChunks_cons_digit (c : Char) (r : List Char) (hc : isAsciiDigit c = true) :
    numChunks (c :: r) =
      match numChunks r with
      | NumChunk.digits d :: t => NumChunk.digits (c :: d) :: t
      | cs => NumChunk.digits [c] :: cs := by
  simp [numChunks, hc]

/-- A nonempty maximal digit run chunks off as a single `digits` chunk. -/
theorem numChunks_run :
    ∀ (a rest : List Char), a ≠ [] → a.all isAsciiDigit = true →
      headIsDigit rest = false →
      numChunks (a ++ rest) = NumChunk.digits a :: numChunks rest
  | [], _, hne, _, _ => absurd rfl hne
  | [c], rest, _, ha, hrest => by
    have hc : isAsciiDigit c = true := by simpa using ha
    rw [List.cons_append, List.nil_append, numChunks_cons_digit c rest hc]
    rcases numChunks_head_other rest hrest with h | ⟨x, xs, h⟩ <;> rw [h]
  | c :: c' :: a', rest, _, ha, hrest => by
    have hc : isAsciiDigit c = true := by
      simp [List.all_cons] at ha
      exact ha.1
    have ha' : (c' :: a').all isAsciiDigit = true := by
      simp [List.all_cons] at ha ⊢
      exact ⟨ha.2.1, ha.2.2⟩
    have ih := numChunks_run (c' :: a') rest (by simp) ha' hrest
    rw [List.cons_append, numChunks_cons_digit c _ hc, ih]

/-- C7.  Number expansion turns exactly the `digits.digits` runs into
"integer DECIMAL fraction" (each part digit by digit) and never consumes
a period that is not between two digit runs — in particular a trailing
sentence period survives untouched.  On the spec's examples:
`normalize("Contact tower 118.3")` contains "DECIMAL" and
`normalize("Roger.")` does not. -/
theorem c7_decimal_expansion :
    (∀ a b : List Char, a ≠ [] → b ≠ [] → a.all isAsciiDigit = true →
        b.all isAsciiDigit = true →
        expandNumbers (a ++ '.' :: b) =
          digitRunWords a ++ " DECIMAL ".data ++ digitRunWords b)
    ∧ (∀ a : List Char, a ≠ [] → a.all isAsciiDigit = true →
        expandNumbers (a ++ ['.']) = digitRunWords a ++ ['.'])
    ∧ containsSeq "DECIMAL".data (normalizeDefault "Contact tower 118.3").data = true
    ∧ containsSeq "DECIMAL".data (normalizeDefault "Roger.").data = false := by
  refine ⟨?_, ?_, by decide, by decide⟩
  · intro a b ha hb had hbd
    unfold expandNumbers
    have h1 := numChunks_run a ('.' :: b) ha had (by simp [headIsDigit, isAsciiDigit])
    have h2 := numChunks_run b [] hb hbd (by simp [headIsDigit])
    rw [List.append_nil] at h2
    rw [h1]
    have h3 : numChunks ('.' :: b) = NumChunk.other '.' :: numChunks b := by
      simp [numChunks, isAsciiDigit]
    rw [h3, h2]
    simp [emitNumChunks, numChunks]
  · intro a ha had
    unfold expandNumbers
    have h1 := numChunks_run a ['.'] ha had (by simp [headIsDigit, isAsciiDigit])
    rw [h1]
    have h3 : numChunks ['.'] = [NumChunk.other '.'] := by
      simp [numChunks, isAsciiDigit]
    rw [h3]
    simp [emitNumChunks]

/-- The decimal shape at a concrete input: "118.3" expands to
"ONE ONE EIGHT DECIMAL THREE" and "118." keeps its period. -/
theorem c7_decimal_expansion_witness :
    expandNumbers "118.3".data = "ONE ONE EIGHT DECIMAL THREE".data
    ∧ expandNumbers "118.".data = "ONE ONE EIGHT".data ++ ['.'] := by
  constructor
  · exact c7_decimal_expansion.1 "118".data "3".data (by decide) (by decide)
      (by decide) (by decide)
  · exact c7_decimal_expansion.2.1 "118".data (by decide) (by decide)

/-- C5.  `should_exclude` is exactly first-match-wins over the rules in
the specified order — empty/blank, manual exclusion, exclusion tag,
quality issue (when enabled), too short, too long (when set), custom
predicate — and in particular "[NO_ENG] hi" is excluded with a reason
naming the `\[NO_ENG\]` pattern even though it is also below the default
minimum word count. -/
theorem c5_rules_in_order :
    (∀ (f : TransmissionFilter) (t : String),
        shouldExclude f t =
          match firstFiring f t with
          | some r => (true, r)
          | none => (false, ""))
    ∧ shouldExclude {} "[NO_ENG] hi" = (true, "exclusion_tag: \\[NO_ENG\\]")
    ∧ wordCount "[NO_ENG] hi" < TransmissionFilter.minLength {} := by
  refine ⟨?_, rfl, by decide⟩
  intro f t
  unfold firstFiring orderedRules
  simp only [List.findSome?_cons, List.findSome?_nil]
  unfold shouldExclude ruleEmpty ruleManual ruleTags ruleQuality ruleTooShort
    ruleTooLong ruleCustom
  split <;> rename_i h1
  · simp [h1]
  · simp only [h1, if_false]
    split <;> rename_i h2
    · simp [h2]
    · simp only [h2, if_false]
      rcases h3 : f.exclusionTags.find? (fun p => p.test t) with _ | p <;>
        simp only [h3]
      · rcases h4 : (activeQualityPatterns f).find? (fun p => p.test t) with _ | q <;>
          simp only [h4]
        · split <;> rename_i h5
          · simp [h5]
          · simp only [h5, if_false]
            split <;> rename_i h6
            · simp [h6]
            · simp only [h6, if_false]
              rcases hcf : f.customFilter with _ | g <;> simp only [hcf]
              · rfl
              · by_cases h7 : g t = true <;> simp [h7]
        · rfl
      · rfl

/-- C6.  The claim says the scorer's language-identification fields are
deterministic across runs.  `detect_language` calls
`langdetect.detect_langs`, and `DetectorFactory.seed` is never set
anywhere in the repository; the unseeded detector initializes with a
random number generator, so its ranking — language code and confidence
alike — can differ between two runs on the same text.  The code passes
the external detector's top guess through verbatim, with no seeding,
pinning or stabilization of its own, so the metrics record inherits the
variation.  The theorem evaluates `detect_language` at the same text
under two behaviors the unseeded detector may exhibit and shows the
reported language follows the detector's answer, not the text. -/
theorem c6_score_follows_detector :
    detectLanguage demoDetector "contact tower one one eight decimal three" =
      ("en", 9 / 10)
    ∧ detectLanguage (fun _ => .ok [⟨"de", 3 / 5⟩])
        "contact tower one one eight decimal three" = ("de", 3 / 5)
    ∧ (detectLanguage demoDetector "contact tower one one eight decimal three").1 ≠
        (detectLanguage (fun _ => .ok [⟨"de", 3 / 5⟩])
          "contact tower one one eight decimal three").1 := by
  exact ⟨rfl, rfl, by decide⟩

/-- C10.  `should_exclude` either keeps a text with exactly
`(False, "")` or excludes it with a nonempty reason string. -/
theorem c10_reason_iff_excluded (f : TransmissionFilter) (t : String) :
    shouldExclude f t = (false, "") ∨
      ((shouldExclude f t).1 = true ∧ (shouldExclude f t).2 ≠ "") := by
  unfold shouldExclude
  split
  · exact Or.inr ⟨rfl, by decide⟩
  · split
    · exact Or.inr ⟨rfl, by decide⟩
    · rcases h3 : f.exclusionTags.find? (fun p => p.test t) with _ | p <;> simp only [h3]
      · rcases h4 : (activeQualityPatterns f).find? (fun p => p.test t) with _ | q <;>
          simp only [h4]
        · split
          · exact Or.inr ⟨by simp, str_append_ne_empty _ _ (by
              simp [String.data_append])⟩
          · split
            · exact Or.inr ⟨by simp, str_append_ne_empty _ _ (by
                simp [String.data_append])⟩
            · rcases hcf : f.customFilter with _ | g <;> simp only [hcf]
              · exact Or.inl (by simp)
              · split
                · exact Or.inl (by simp)
                · exact Or.inr ⟨by simp, by decide⟩
        · exact Or.inr ⟨by simp, str_append_ne_empty _ _ (by decide)⟩
      · exact Or.inr ⟨by simp, str_append_ne_empty _ _ (by decide)⟩

theorem data_ne_nil_of_ne_empty (s : String) (h : s ≠ "") : s.data ≠ [] := by
  intro hd
  apply h
  calc s = String.mk s.data := rfl
    _ = String.mk [] := by rw [hd]
    _ = "" := rfl

theorem splitOnNewline_append (l rest : List Char) (h : '\n' ∉ l)
    (hr : '\r' ∉ l) :
    splitOnNewline (l ++ '\n' :: rest) = l :: splitOnNewline rest := by
  induction l with
  | nil => simp [splitOnNewline]
  | cons c cs ih =>
    have hcn : ¬c = '\n' := fun he => h (he ▸ List.mem_cons_self c cs)
    have hcr : ¬c = '\r' := fun he => hr (he ▸ List.mem_cons_self c cs)
    have h' : '\n' ∉ cs := fun hm => h (List.mem_cons_of_mem c hm)
    have hr' : '\r' ∉ cs := fun hm => hr (List.mem_cons_of_mem c hm)
    rw [List.cons_append, splitOnNewline.eq_3 _ _ (fun _ hc _ => hcr hc),
      if_neg (by simp [hcn, hcr]), ih h' hr']

/-- Lines written as `entry ++ '\n'` load back as exactly the entries,
provided each entry is nonempty, strip-stable, not a comment, uppercase
and free of both line-break characters. -/
theorem loadLines_entries :
    ∀ es : List String,
      (∀ e ∈ es, e.data ≠ [] ∧ pyStrip e.data = e.data ∧
        startsWithSeq "#".data e.data = false ∧ pyUpper e.data = e.data ∧
        '\n' ∉ e.data ∧ '\r' ∉ e.data) →
      ((splitOnNewline ((es.map (fun e => e.data ++ ['\n'])).flatten)).map
        pyStrip).filterMap loadKeep = es := by
  intro es
  induction es with
  | nil => intro _; rfl
  | cons e es' ih =>
    intro hes
    obtain ⟨hne, hstrip, hhash, hupper, hnl, hnr⟩ := hes e (List.mem_cons_self e es')
    have hes' := fun x hx => hes x (List.mem_cons_of_mem e hx)
    have hk : loadKeep e.data = some (String.mk (pyUpper e.data)) := by
      unfold loadKeep
      rw [if_neg]
      simp only [Bool.or_eq_true, not_or, List.isEmpty_eq_true]
      exact ⟨fun h => hne (by simp [h]), by simp [hhash]⟩
    rw [List.map_cons, List.flatten_cons, List.append_assoc, List.singleton_append,
      splitOnNewline_append e.data _ hnl hnr, List.map_cons, List.filterMap_cons, hstrip,
      hk, hupper, ih hes']

/-- C8, counterexample.  Round-tripping is not exact for every set the
filter can hold: `add_manual_exclusion("#a")` stores "#A", the save
writes it as the line "#A", and the load skips it as a comment line, so
the reloaded set is missing the entry.  Likewise an embedded carriage
return is a line break to the universal-newlines text-mode read: "A\rB"
saves as one line but loads back as the two entries "A" and "B". -/
theorem c8_hash_entry_lost :
    ("#A" ∈ (["#A"] : List String) ∧
      "#A" ∉ loadManualExclusions (saveManualExclusions ["#A"]))
    ∧ ("A\rB" ∈ (["A\rB"] : List String) ∧
        "A\rB" ∉ loadManualExclusions (saveManualExclusions ["A\rB"]) ∧
        "A" ∈ loadManualExclusions (saveManualExclusions ["A\rB"])) := by
  have hms1 : (["#A"] : List String).mergeSort (fun a b => decide (a ≤ b)) = ["#A"] :=
    List.perm_singleton.mp (List.mergeSort_perm _ _)
  have hms2 : (["A\rB"] : List String).mergeSort (fun a b => decide (a ≤ b)) = ["A\rB"] :=
    List.perm_singleton.mp (List.mergeSort_perm _ _)
  refine ⟨⟨List.mem_singleton.mpr rfl, ?_⟩, List.mem_singleton.mpr rfl, ?_, ?_⟩ <;>
      unfold loadManualExclusions saveManualExclusions
  · rw [hms1]
    decide
  · rw [hms2]
    decide
  · rw [hms2]
    decide

/-- C8, amended.  Saving and reloading reproduces exactly the held set
whenever every entry is a plausible manual exclusion line: nonempty,
without surrounding whitespace, without an embedded line break ('\n' or
'\r' — the loader reads the file with universal newlines), not starting
with '#', and already case-normalized to uppercase (as
`add_manual_exclusion` and `_load_manual_exclusions` store them).
Entries outside that shape (e.g. "#A" or "A\rB", see the counterexample)
are lost or altered by the line-oriented file format. -/
theorem c8_roundtrip (s : List String)
    (hs : ∀ e ∈ s, e ≠ "" ∧ pyStrip e.data = e.data ∧
      startsWithSeq "#".data e.data = false ∧ pyUpper e.data = e.data ∧
      '\n' ∉ e.data ∧ '\r' ∉ e.data)
    (x : String) :
    x ∈ loadManualExclusions (saveManualExclusions s) ↔ x ∈ s := by
  unfold loadManualExclusions saveManualExclusions
  have hes : ∀ e ∈ s.mergeSort (fun a b => decide (a ≤ b)),
      e.data ≠ [] ∧ pyStrip e.data = e.data ∧
        startsWithSeq "#".data e.data = false ∧ pyUpper e.data = e.data ∧
        '\n' ∉ e.data ∧ '\r' ∉ e.data := by
    intro e he
    obtain ⟨h1, h2, h3, h4, h5, h6⟩ := hs e (List.mem_mergeSort.mp he)
    exact ⟨data_ne_nil_of_ne_empty e h1, h2, h3, h4, h5, h6⟩
  rw [show (String.mk ("# Manual Exclusions - One per line\n# Lines starting with # are comments\n\n".data ++
        ((s.mergeSort (fun a b => decide (a ≤ b))).map (fun e => e.data ++ ['\n'])).flatten)).data =
      "# Manual Exclusions - One per line".data ++ '\n' ::
        ("# Lines starting with # are comments".data ++ '\n' :: ('\n' ::
          ((s.mergeSort (fun a b => decide (a ≤ b))).map (fun e => e.data ++ ['\n'])).flatten))
    from rfl]
  rw [splitOnNewline_append _ _ (by decide) (by decide),
    splitOnNewline_append _ _ (by decide) (by decide),
    show splitOnNewline ('\n' ::
        ((s.mergeSort (fun a b => decide (a ≤ b))).map (fun e => e.data ++ ['\n'])).flatten) =
      [] :: splitOnNewline
        ((s.mergeSort (fun a b => decide (a ≤ b))).map (fun e => e.data ++ ['\n'])).flatten
    from by simp [splitOnNewline]]
  rw [List.map_cons, List.map_cons, List.map_cons, List.filterMap_cons,
    List.filterMap_cons, List.filterMap_cons,
    show loadKeep (pyStrip "# Manual Exclusions - One per line".data) = none from by decide,
    show loadKeep (pyStrip "# Lines starting with # are comments".data) = none from by decide,
    show loadKeep (pyStrip []) = none from by decide,
    loadLines_entries _ hes]
  exact List.mem_mergeSort

theorem c8_roundtrip_witness :
    "ROGER" ∈ loadManualExclusions (saveManualExclusions ["ROGER"]) :=
  (c8_roundtrip ["ROGER"] (by decide) "ROGER").mpr (by decide)

end ATC
